import Mathlib

/-!
Shallow embedding of `src/KillerCubes.cpp` (a marble-shooting arcade game on
the TL-Engine).  Rendering, asset loading and input polling are delegated to
the external engine; the embedded state keeps exactly the game-logic-visible
data: marble positions/flags, block models (position, skin, visibility),
block damage states, the game-over text visibility, the phase, and the
running flag.  Positions are modelled over `ℚ` (the C++ code uses `float`,
with no operation outside exact decimal arithmetic in the logic itself).
-/

namespace KillerCubes

/-- Game phases, from `enum GameState { MENU, GAME, OVER }` (line 11). -/
inductive GameState where
  | MENU
  | GAME
  | OVER
deriving DecidableEq, Repr

/-- Block damage states, from `enum BlockState { NORMAL, HIT_ONCE, DEAD }` (line 14). -/
inductive BlockState where
  | NORMAL
  | HIT_ONCE
  | DEAD
deriving DecidableEq, Repr

/-- A 3-D position, as held by a TL-Engine model. -/
structure Pos3 where
  x : ℚ
  y : ℚ
  z : ℚ
deriving DecidableEq, Repr

/-- One marble pool slot: the model's position and visibility together with the
`active` flag of `struct Marble` (lines 17-20). -/
structure Marble where
  pos : Pos3
  visible : Bool
  active : Bool
deriving DecidableEq, Repr

/-- One block model: position, skin texture and visibility (the damage state is
kept in the separate `blockStates` array, as in the source). -/
structure BlockModel where
  pos : Pos3
  skin : String
  visible : Bool
deriving DecidableEq, Repr

/-- The whole game-logic state: `marbles[3]`, `blocks[2][5]`, `blockStates[2][5]`,
the game-over text visibility, `currentState`, and whether the engine is running. -/
@[ext]
structure GState where
  marbles : Fin 3 → Marble
  blocks : Fin 2 → Fin 5 → BlockModel
  blockStates : Fin 2 → Fin 5 → BlockState
  gameOverVisible : Bool
  currentState : GameState
  running : Bool

/-- The per-frame key signals polled by `Update`/`UpdateGame`:
Space (fire/start), `0` (restart), Escape (quit). -/
structure Input where
  space : Bool
  key0 : Bool
  escape : Bool
deriving DecidableEq, Repr

/-- `const int kNumBlocksPerRow = 5` (line 5). -/
def kNumBlocksPerRow : Nat := 5

/-- `const int kMaxMarbles = 3` (line 6). -/
def kMaxMarbles : Nat := 3

/-- `const float kMarbleSpeed = 0.5f` (line 7). -/
def kMarbleSpeed : ℚ := 1 / 2

/-- `const float kBlockWidth = 2.0f` (line 8). -/
def kBlockWidth : ℚ := 2

/-- Initial grid position of block `(row, i)`:
`CreateModel(i * kBlockWidth - 5.0f, 0, row * 5.0f + 10.0f)` (lines 57 and 86). -/
def blockInitPos (row : Fin 2) (i : Fin 5) : Pos3 :=
  ⟨(i.val : ℚ) * kBlockWidth - 5, 0, (row.val : ℚ) * 5 + 10⟩

/-- Game-logic effect of `SetupScene` (lines 35-72): blocks at their grid
positions in state `NORMAL`, marbles inactive and hidden at the origin,
game-over text hidden, phase `MENU` (line 32), engine running. -/
def SetupScene : GState where
  marbles := fun _ => ⟨⟨0, 0, 0⟩, false, false⟩
  blocks := fun row i => ⟨blockInitPos row i, "default.jpg", true⟩
  blockStates := fun _ _ => BlockState.NORMAL
  gameOverVisible := false
  currentState := GameState.MENU
  running := true

/-- `RestartGame` (lines 75-95): deactivate, hide and re-origin all marbles;
reset every block to its grid position, default skin, visible, `NORMAL`;
hide the game-over text; set `currentState = GAME`. -/
def RestartGame (s : GState) : GState :=
  { s with
    marbles := fun _ => ⟨⟨0, 0, 0⟩, false, false⟩
    blocks := fun row i => ⟨blockInitPos row i, "default.jpg", true⟩
    blockStates := fun _ _ => BlockState.NORMAL
    gameOverVisible := false
    currentState := GameState.GAME }

/-- `ShootMarble` (lines 98-107): scan the pool in index order for the first
inactive slot; if found, place it at the origin, make it visible and active,
and `break`; otherwise do nothing. -/
def ShootMarble (s : GState) : GState :=
  match (List.finRange 3).find? (fun i => !(s.marbles i).active) with
  | some i => { s with marbles := Function.update s.marbles i ⟨⟨0, 0, 0⟩, true, true⟩ }
  | none => s

/-- `CheckCollision` (lines 110-116): squared ground-plane (x,z) distance
strictly below `(radius * 2)^2`. -/
def CheckCollision (m1 m2 : Pos3) (radius : ℚ := 1) : Bool :=
  let dx := m1.x - m2.x
  let dz := m1.z - m2.z
  let distanceSq := dx * dx + dz * dz
  let threshold := radius * 2
  decide (distanceSq < threshold * threshold)

/-- Pointwise assignment `f[r][c] = v` on a two-dimensional array. -/
def updB {α : Type} (f : Fin 2 → Fin 5 → α) (r : Fin 2) (c : Fin 5) (v : α) :
    Fin 2 → Fin 5 → α :=
  Function.update f r (Function.update (f r) c v)

/-- The guard of line 140: block `(rj.1, rj.2)` is not `DEAD` and the marble
`i` collides with it. -/
def hitCond (i : Fin 3) (rj : Fin 2 × Fin 5) (s : GState) : Prop :=
  s.blockStates rj.1 rj.2 ≠ BlockState.DEAD ∧
  CheckCollision (s.marbles i).pos (s.blocks rj.1 rj.2).pos = true

instance (i : Fin 3) (rj : Fin 2 × Fin 5) (s : GState) : Decidable (hitCond i rj s) :=
  inferInstanceAs (Decidable (s.blockStates rj.1 rj.2 ≠ BlockState.DEAD ∧
    CheckCollision (s.marbles i).pos (s.blocks rj.1 rj.2).pos = true))

/-- Body of the inner block loop (lines 140-153) for marble `i` at block `rj`:
when the guard holds, deactivate and hide the marble and advance the block's
damage state by one step (`NORMAL`: red skin, `HIT_ONCE`; `HIT_ONCE`: `DEAD`,
hidden).  There is no `break`: the caller keeps iterating afterwards. -/
def processBlock (i : Fin 3) (rj : Fin 2 × Fin 5) (s : GState) : GState :=
  if hitCond i rj s then
    let s1 := { s with
      marbles :=
        Function.update s.marbles i { s.marbles i with active := false, visible := false } }
    match s.blockStates rj.1 rj.2 with
    | BlockState.NORMAL =>
        { s1 with
          blocks := updB s1.blocks rj.1 rj.2 { s1.blocks rj.1 rj.2 with skin := "red.jpg" }
          blockStates := updB s1.blockStates rj.1 rj.2 BlockState.HIT_ONCE }
    | BlockState.HIT_ONCE =>
        { s1 with
          blockStates := updB s1.blockStates rj.1 rj.2 BlockState.DEAD
          blocks := updB s1.blocks rj.1 rj.2 { s1.blocks rj.1 rj.2 with visible := false } }
    | BlockState.DEAD => s1
  else s

/-- Grid iteration order of lines 138-139: row 0 before row 1, columns ascending. -/
def blockOrder : List (Fin 2 × Fin 5) :=
  [(0, 0), (0, 1), (0, 2), (0, 3), (0, 4),
   (1, 0), (1, 1), (1, 2), (1, 3), (1, 4)]

/-- The nested block loops of lines 138-155, folded over an index list. -/
def hitFold (i : Fin 3) (L : List (Fin 2 × Fin 5)) (s : GState) : GState :=
  L.foldl (fun t rj => processBlock i rj t) s

/-- Per-marble body of the loop at lines 126-157: if active, `MoveZ(kMarbleSpeed)`;
if now `z > 30`, deactivate and hide and `continue`; otherwise run the block
collision loops. -/
def marbleStep (i : Fin 3) (s : GState) : GState :=
  if (s.marbles i).active = true then
    let m0 := s.marbles i
    let m1 := { m0 with pos := { m0.pos with z := m0.pos.z + kMarbleSpeed } }
    let s1 := { s with marbles := Function.update s.marbles i m1 }
    if m1.pos.z > 30 then
      { s1 with marbles :=
          Function.update s1.marbles i { m1 with active := false, visible := false } }
    else
      hitFold i blockOrder s1
  else s

/-- The all-blocks-destroyed test of lines 165-173: scan every block in grid
order and report whether each one's state is `DEAD`. -/
def allDead (bs : Fin 2 → Fin 5 → BlockState) : Bool :=
  blockOrder.all (fun rj => decide (bs rj.1 rj.2 = BlockState.DEAD))

/-- The marble loop of lines 126-157, over all three pool slots in order. -/
def marbleLoop (s : GState) : GState :=
  (List.finRange 3).foldl (fun t i => marbleStep i t) s

/-- `UpdateGame` (lines 119-180): fire on Space, move marbles and process
collisions, restart on `0`, then enter `OVER` (revealing the game-over text)
when every block is `DEAD`. -/
def UpdateGame (inp : Input) (s : GState) : GState :=
  let s1 := if inp.space = true then ShootMarble s else s
  let s2 := marbleLoop s1
  let s3 := if inp.key0 = true then RestartGame s2 else s2
  if allDead s3.blockStates = true then
    { s3 with currentState := GameState.OVER, gameOverVisible := true }
  else s3

/-- `Update` (lines 183-207): `MENU` starts the game on Space; `GAME` runs
`UpdateGame`; `OVER` restarts on `0` and stops the engine on Escape. -/
def Update (inp : Input) (s : GState) : GState :=
  match s.currentState with
  | GameState.MENU =>
      if inp.space = true then { s with currentState := GameState.GAME } else s
  | GameState.GAME => UpdateGame inp s
  | GameState.OVER =>
      let s1 := if inp.key0 = true then RestartGame s else s
      if inp.escape = true then { s1 with running := false } else s1

/-- Trace of states produced by running `Update` over a list of per-frame inputs. -/
def runTrace (s : GState) : List Input → List GState
  | [] => []
  | inp :: rest =>
      let s1 := Update inp s
      s1 :: runTrace (Update inp s) rest

/-! ### Derived notions and concrete states -/

/-- Damage-state successor along `NORMAL → HIT_ONCE → DEAD` (lines 144-152). -/
def advance : BlockState → BlockState
  | BlockState.NORMAL => BlockState.HIT_ONCE
  | BlockState.HIT_ONCE => BlockState.DEAD
  | BlockState.DEAD => BlockState.DEAD

/-- Numeric rank of a damage state, for monotonicity statements. -/
def bval : BlockState → Nat
  | BlockState.NORMAL => 0
  | BlockState.HIT_ONCE => 1
  | BlockState.DEAD => 2

/-- A marble in flight: active and visible at `(0, 0, z)`. -/
def marbleAt (z : ℚ) : Marble := ⟨⟨0, 0, z⟩, true, true⟩

/-- An inactive, hidden marble at the origin. -/
def idleMarble : Marble := ⟨⟨0, 0, 0⟩, false, false⟩

/-- Number of active marble pool slots. -/
def activeCount (s : GState) : Nat :=
  ((List.finRange 3).filter (fun i => (s.marbles i).active)).length

/-- Number of `DEAD` blocks. -/
def deadCount (s : GState) : Nat :=
  (blockOrder.filter (fun rj => decide (s.blockStates rj.1 rj.2 = BlockState.DEAD))).length

/-- A frame on which no key fires. -/
def noKeys : Input := ⟨false, false, false⟩

/-- A `GAME`-phase state with a single marble in flight at `z = 17/2` and every
block `NORMAL` at its grid position. -/
def testC1 : GState :=
  { RestartGame SetupScene with
    marbles := Function.update (fun _ => idleMarble) 0 (marbleAt (17 / 2)) }

/-- A `GAME`-phase state with nine blocks `DEAD`, block `(0,2)` still `NORMAL`,
and two marbles in flight at `z = 17/2` and `z = 9`. -/
def testC2 : GState :=
  { RestartGame SetupScene with
    marbles := fun i =>
      if i = 0 then marbleAt (17 / 2) else if i = 1 then marbleAt 9 else idleMarble
    blockStates := fun row j =>
      if row = 0 ∧ j = 2 then BlockState.NORMAL else BlockState.DEAD }

/-- A `GAME`-phase state with a single marble in flight at `z = 299/10`, one
tick short of the out-of-bounds limit. -/
def testC4 : GState :=
  { RestartGame SetupScene with
    marbles := Function.update (fun _ => idleMarble) 0 (marbleAt (299 / 10)) }

/-- The initial scene, moved to the `OVER` phase. -/
def overState : GState := { SetupScene with currentState := GameState.OVER }

/-- Position of a marble after `MoveZ(kMarbleSpeed)`. -/
def newPos (m : Marble) : Pos3 := { m.pos with z := m.pos.z + kMarbleSpeed }

/-- A marble moved forward by one tick, flags untouched. -/
def movedMarble (m : Marble) : Marble := { m with pos := newPos m }

/-- A marble moved forward and then deactivated and hidden (the out-of-bounds case). -/
def deadMarble (m : Marble) : Marble :=
  { m with pos := newPos m, active := false, visible := false }

/-- Overwrite pool slot `i`. -/
def setMarble (s : GState) (i : Fin 3) (m : Marble) : GState :=
  { s with marbles := Function.update s.marbles i m }

/-- Marble `i`, after moving this frame, overlaps the non-`DEAD` block `(row, j)`. -/
def hits (s : GState) (i : Fin 3) (row : Fin 2) (j : Fin 5) : Prop :=
  s.blockStates row j ≠ BlockState.DEAD ∧
  CheckCollision (newPos (s.marbles i)) (s.blocks row j).pos = true

instance (s : GState) (i : Fin 3) (row : Fin 2) (j : Fin 5) : Decidable (hits s i row j) :=
  inferInstanceAs (Decidable (s.blockStates row j ≠ BlockState.DEAD ∧
    CheckCollision (newPos (s.marbles i)) (s.blocks row j).pos = true))

/-- Invariant: a `DEAD` block is never visible. -/
def blocksInv (s : GState) : Prop :=
  ∀ (r : Fin 2) (c : Fin 5),
    s.blockStates r c = BlockState.DEAD → (s.blocks r c).visible = false

/-- Invariant: each marble's active flag equals its model's visibility. -/
def marbleInv (s : GState) : Prop :=
  ∀ i : Fin 3, (s.marbles i).active = (s.marbles i).visible

/-- `List.finRange 3` as a literal list, for unfolding the marble loop. -/
theorem finRange3 : List.finRange 3 = [0, 1, 2] := by decide


/-! ### Pointwise behaviour of `updB` and `processBlock` -/

theorem updB_apply {α : Type} (f : Fin 2 → Fin 5 → α) (r : Fin 2) (c : Fin 5) (v : α)
    (r' : Fin 2) (c' : Fin 5) :
    updB f r c v r' c' = if r' = r ∧ c' = c then v else f r' c' := by
  unfold updB
  by_cases hr : r' = r
  · subst hr
    by_cases hc : c' = c
    · subst hc; simp
    · simp [hc]
  · simp [hr]

theorem processBlock_not_hit (i : Fin 3) (rj : Fin 2 × Fin 5) (s : GState)
    (h : ¬hitCond i rj s) : processBlock i rj s = s := by
  unfold processBlock
  rw [if_neg h]

theorem processBlock_currentState (i : Fin 3) (rj : Fin 2 × Fin 5) (s : GState) :
    (processBlock i rj s).currentState = s.currentState := by
  unfold processBlock
  split
  · cases s.blockStates rj.1 rj.2 <;> rfl
  · rfl

theorem processBlock_gameOverVisible (i : Fin 3) (rj : Fin 2 × Fin 5) (s : GState) :
    (processBlock i rj s).gameOverVisible = s.gameOverVisible := by
  unfold processBlock
  split
  · cases s.blockStates rj.1 rj.2 <;> rfl
  · rfl

theorem processBlock_running (i : Fin 3) (rj : Fin 2 × Fin 5) (s : GState) :
    (processBlock i rj s).running = s.running := by
  unfold processBlock
  split
  · cases s.blockStates rj.1 rj.2 <;> rfl
  · rfl

theorem processBlock_marbles_ne (i : Fin 3) (rj : Fin 2 × Fin 5) (s : GState)
    (k : Fin 3) (hk : k ≠ i) :
    (processBlock i rj s).marbles k = s.marbles k := by
  unfold processBlock
  split
  · cases s.blockStates rj.1 rj.2 <;> simp [Function.update_noteq hk]
  · rfl

theorem processBlock_marble_pos (i : Fin 3) (rj : Fin 2 × Fin 5) (s : GState) :
    ((processBlock i rj s).marbles i).pos = (s.marbles i).pos := by
  unfold processBlock
  split
  · cases s.blockStates rj.1 rj.2 <;> simp
  · rfl

theorem processBlock_marble_active (i : Fin 3) (rj : Fin 2 × Fin 5) (s : GState) :
    ((processBlock i rj s).marbles i).active =
      (if hitCond i rj s then false else (s.marbles i).active) := by
  by_cases h : hitCond i rj s
  · unfold processBlock
    simp only [if_pos h]
    cases s.blockStates rj.1 rj.2 <;> simp
  · rw [processBlock_not_hit i rj s h, if_neg h]

theorem processBlock_marble_visible (i : Fin 3) (rj : Fin 2 × Fin 5) (s : GState) :
    ((processBlock i rj s).marbles i).visible =
      (if hitCond i rj s then false else (s.marbles i).visible) := by
  by_cases h : hitCond i rj s
  · unfold processBlock
    simp only [if_pos h]
    cases s.blockStates rj.1 rj.2 <;> simp
  · rw [processBlock_not_hit i rj s h, if_neg h]

theorem processBlock_blocks_pos (i : Fin 3) (rj : Fin 2 × Fin 5) (s : GState)
    (r : Fin 2) (c : Fin 5) :
    ((processBlock i rj s).blocks r c).pos = (s.blocks r c).pos := by
  unfold processBlock
  split
  · rcases s.blockStates rj.1 rj.2 with _ | _ | _
    · simp only [updB_apply]
      split
      · rename_i hrc
        obtain ⟨h1, h2⟩ := hrc
        subst h1; subst h2
        rfl
      · rfl
    · simp only [updB_apply]
      split
      · rename_i hrc
        obtain ⟨h1, h2⟩ := hrc
        subst h1; subst h2
        rfl
      · rfl
    · rfl
  · rfl

theorem processBlock_blockStates_ne (i : Fin 3) (rj : Fin 2 × Fin 5) (s : GState)
    (r : Fin 2) (c : Fin 5) (h : ¬(r = rj.1 ∧ c = rj.2)) :
    (processBlock i rj s).blockStates r c = s.blockStates r c := by
  unfold processBlock
  split
  · cases s.blockStates rj.1 rj.2 <;> simp [updB_apply, h]
  · rfl

theorem processBlock_blockStates_self (i : Fin 3) (rj : Fin 2 × Fin 5) (s : GState) :
    (processBlock i rj s).blockStates rj.1 rj.2 =
      (if hitCond i rj s then advance (s.blockStates rj.1 rj.2)
       else s.blockStates rj.1 rj.2) := by
  by_cases h : hitCond i rj s
  · unfold processBlock
    simp only [if_pos h]
    rcases hb : s.blockStates rj.1 rj.2 with _ | _ | _
    · simp [updB_apply, advance]
    · simp [updB_apply, advance]
    · exact absurd hb h.1
  · rw [processBlock_not_hit i rj s h, if_neg h]

/-! ### Claim C3: the collision predicate -/

/-- C3: the collision test returns `true` iff the squared horizontal (x,z)
distance between the two centres is strictly less than `(2 * radius)^2`; at
exactly the threshold it returns `false`. -/
theorem C3_collision_strict (m1 m2 : Pos3) (radius : ℚ) :
    (CheckCollision m1 m2 radius = true ↔
      (m1.x - m2.x) ^ 2 + (m1.z - m2.z) ^ 2 < (2 * radius) ^ 2) ∧
    ((m1.x - m2.x) ^ 2 + (m1.z - m2.z) ^ 2 = (2 * radius) ^ 2 →
      CheckCollision m1 m2 radius = false) := by
  have e1 : (m1.x - m2.x) * (m1.x - m2.x) + (m1.z - m2.z) * (m1.z - m2.z)
      = (m1.x - m2.x) ^ 2 + (m1.z - m2.z) ^ 2 := by ring
  have e2 : radius * 2 * (radius * 2) = (2 * radius) ^ 2 := by ring
  have key : CheckCollision m1 m2 radius = true ↔
      (m1.x - m2.x) ^ 2 + (m1.z - m2.z) ^ 2 < (2 * radius) ^ 2 := by
    show decide ((m1.x - m2.x) * (m1.x - m2.x) + (m1.z - m2.z) * (m1.z - m2.z) <
        radius * 2 * (radius * 2)) = true ↔
      (m1.x - m2.x) ^ 2 + (m1.z - m2.z) ^ 2 < (2 * radius) ^ 2
    rw [e1, e2, decide_eq_true_eq]
  refine ⟨key, fun h => Bool.eq_false_iff.mpr fun hc => ?_⟩
  have hlt := key.mp hc
  rw [h] at hlt
  exact lt_irrefl _ hlt

/-- C3 witness: centres `(0,0,0)` and `(2,0,0)` are at horizontal distance
exactly `2`, and the collision test rejects them. -/
theorem C3_witness : CheckCollision ⟨0, 0, 0⟩ ⟨2, 0, 0⟩ 1 = false :=
  (C3_collision_strict ⟨0, 0, 0⟩ ⟨2, 0, 0⟩ 1).2 (by norm_num)

/-! ### Claim C7: restart is a constant full reset -/

/-- C7: from any state, one `RestartGame` leaves all blocks `NORMAL` and visible
at their grid positions, all marbles inactive and invisible at the origin, and
the phase `GAME` (the spec's PLAYING); a second call changes nothing more. -/
theorem C7_restart_idempotent (s : GState) :
    ((RestartGame s).blockStates = fun _ _ => BlockState.NORMAL) ∧
    ((RestartGame s).blocks = fun row i => ⟨blockInitPos row i, "default.jpg", true⟩) ∧
    ((RestartGame s).marbles = fun _ => idleMarble) ∧
    (RestartGame s).currentState = GameState.GAME ∧
    (RestartGame s).gameOverVisible = false ∧
    RestartGame (RestartGame s) = RestartGame s :=
  ⟨rfl, rfl, rfl, rfl, rfl, rfl⟩

/-- C7 witness: the reset applied twice from the initial scene. -/
theorem C7_witness : RestartGame (RestartGame SetupScene) = RestartGame SetupScene :=
  (C7_restart_idempotent SetupScene).2.2.2.2.2

/-! ### Claim C10: the frame update is deterministic in its inputs -/

/-- C10: two runs from equal states fed equal per-frame input sequences produce
equal state traces. -/
theorem C10_deterministic (s1 s2 : GState) (ins1 ins2 : List Input)
    (hs : s1 = s2) (hins : ins1 = ins2) :
    runTrace s1 ins1 = runTrace s2 ins2 := by
  subst hs
  subst hins
  rfl

/-- C10 witness: a concrete one-frame run compared with itself. -/
theorem C10_witness : runTrace SetupScene [noKeys] = runTrace SetupScene [noKeys] :=
  C10_deterministic SetupScene SetupScene [noKeys] [noKeys] rfl rfl

/- fold preservation -/
theorem hitFold_cons (i : Fin 3) (rj : Fin 2 × Fin 5) (L : List (Fin 2 × Fin 5)) (s : GState) :
    hitFold i (rj :: L) s = hitFold i L (processBlock i rj s) := rfl

theorem hitFold_currentState (i : Fin 3) (L : List (Fin 2 × Fin 5)) (s : GState) :
    (hitFold i L s).currentState = s.currentState := by
  induction L generalizing s with
  | nil => rfl
  | cons rj L ih => rw [hitFold_cons, ih, processBlock_currentState]

theorem hitFold_gameOverVisible (i : Fin 3) (L : List (Fin 2 × Fin 5)) (s : GState) :
    (hitFold i L s).gameOverVisible = s.gameOverVisible := by
  induction L generalizing s with
  | nil => rfl
  | cons rj L ih => rw [hitFold_cons, ih, processBlock_gameOverVisible]

theorem hitFold_running (i : Fin 3) (L : List (Fin 2 × Fin 5)) (s : GState) :
    (hitFold i L s).running = s.running := by
  induction L generalizing s with
  | nil => rfl
  | cons rj L ih => rw [hitFold_cons, ih, processBlock_running]

theorem hitFold_marbles_ne (i : Fin 3) (L : List (Fin 2 × Fin 5)) (s : GState)
    (k : Fin 3) (hk : k ≠ i) :
    (hitFold i L s).marbles k = s.marbles k := by
  induction L generalizing s with
  | nil => rfl
  | cons rj L ih => rw [hitFold_cons, ih, processBlock_marbles_ne i rj s k hk]

theorem hitFold_marble_pos (i : Fin 3) (L : List (Fin 2 × Fin 5)) (s : GState) :
    ((hitFold i L s).marbles i).pos = (s.marbles i).pos := by
  induction L generalizing s with
  | nil => rfl
  | cons rj L ih => rw [hitFold_cons, ih, processBlock_marble_pos]

theorem hitFold_blocks_pos (i : Fin 3) (L : List (Fin 2 × Fin 5)) (s : GState)
    (r : Fin 2) (c : Fin 5) :
    ((hitFold i L s).blocks r c).pos = (s.blocks r c).pos := by
  induction L generalizing s with
  | nil => rfl
  | cons rj L ih => rw [hitFold_cons, ih, processBlock_blocks_pos]

/- hitCond stability under processBlock at another block -/
theorem hitCond_processBlock (i : Fin 3) (rj rj' : Fin 2 × Fin 5) (s : GState)
    (h : rj' ≠ rj) : hitCond i rj' (processBlock i rj s) ↔ hitCond i rj' s := by
  unfold hitCond
  rw [processBlock_blockStates_ne i rj s rj'.1 rj'.2
        (fun hand => h (Prod.ext_iff.mpr hand)),
      processBlock_marble_pos, processBlock_blocks_pos]

/- the block-state characterisation of a single marble's pass -/
theorem hitFold_blockStates (i : Fin 3) (L : List (Fin 2 × Fin 5)) (hL : L.Nodup)
    (s : GState) (r : Fin 2) (c : Fin 5) :
    (hitFold i L s).blockStates r c =
      if (r, c) ∈ L ∧ hitCond i (r, c) s then advance (s.blockStates r c)
      else s.blockStates r c := by
  induction L generalizing s with
  | nil => simp [hitFold]
  | cons rj L ih =>
    rw [List.nodup_cons] at hL
    obtain ⟨hnotmem, hndL⟩ := hL
    rw [hitFold_cons, ih hndL]
    by_cases heq : (r, c) = rj
    · subst heq
      rw [if_neg (fun hand => hnotmem hand.1)]
      rw [processBlock_blockStates_self]
      simp [List.mem_cons]
    · rw [processBlock_blockStates_ne i rj s r c
            (fun hand => heq (Prod.ext_iff.mpr hand))]
      simp only [hitCond_processBlock i rj (r, c) s heq]
      simp [List.mem_cons, heq]

/- marble flags through a pass -/
theorem processBlock_active_mono (i : Fin 3) (rj : Fin 2 × Fin 5) (s : GState)
    (h : (s.marbles i).active = false) :
    ((processBlock i rj s).marbles i).active = false := by
  rw [processBlock_marble_active]
  by_cases hc : hitCond i rj s <;> simp [hc, h]

theorem processBlock_visible_mono (i : Fin 3) (rj : Fin 2 × Fin 5) (s : GState)
    (h : (s.marbles i).visible = false) :
    ((processBlock i rj s).marbles i).visible = false := by
  rw [processBlock_marble_visible]
  by_cases hc : hitCond i rj s <;> simp [hc, h]

theorem hitFold_flags_false (i : Fin 3) (L : List (Fin 2 × Fin 5)) (s : GState)
    (h : (s.marbles i).active = false) (hv : (s.marbles i).visible = false) :
    ((hitFold i L s).marbles i).active = false ∧
    ((hitFold i L s).marbles i).visible = false := by
  induction L generalizing s with
  | nil => exact ⟨h, hv⟩
  | cons rj L ih =>
    rw [hitFold_cons]
    exact ih (processBlock i rj s) (processBlock_active_mono i rj s h)
      (processBlock_visible_mono i rj s hv)

theorem hitFold_marble_flags (i : Fin 3) (L : List (Fin 2 × Fin 5)) (s : GState) :
    (((hitFold i L s).marbles i).active =
      if ∃ rj ∈ L, hitCond i rj s then false else (s.marbles i).active) ∧
    (((hitFold i L s).marbles i).visible =
      if ∃ rj ∈ L, hitCond i rj s then false else (s.marbles i).visible) := by
  induction L generalizing s with
  | nil => simp [hitFold]
  | cons rj L ih =>
    rw [hitFold_cons]
    by_cases hc : hitCond i rj s
    · have h1 : ((processBlock i rj s).marbles i).active = false := by
        rw [processBlock_marble_active, if_pos hc]
      have h2 : ((processBlock i rj s).marbles i).visible = false := by
        rw [processBlock_marble_visible, if_pos hc]
      have hex : ∃ rj' ∈ rj :: L, hitCond i rj' s :=
        ⟨rj, List.mem_cons_self rj L, hc⟩
      rw [if_pos hex]
      have := hitFold_flags_false i L (processBlock i rj s) h1 h2
      exact ⟨this.1, by rw [if_pos hex]; exact this.2⟩
    · rw [processBlock_not_hit i rj s hc]
      obtain ⟨ha, hv⟩ := ih s
      have hiff : (∃ rj' ∈ rj :: L, hitCond i rj' s) ↔ (∃ rj' ∈ L, hitCond i rj' s) := by
        constructor
        · rintro ⟨a, ham, hca⟩
          rcases List.mem_cons.mp ham with h1 | h1
          · subst h1; exact absurd hca hc
          · exact ⟨a, h1, hca⟩
        · rintro ⟨a, ham, hca⟩
          exact ⟨a, List.mem_cons_of_mem _ ham, hca⟩
      simp only [hiff]
      exact ⟨ha, hv⟩



theorem blockOrder_nodup : blockOrder.Nodup := by decide

theorem mem_blockOrder (rj : Fin 2 × Fin 5) : rj ∈ blockOrder := by
  rcases rj with ⟨r, c⟩
  fin_cases r <;> fin_cases c <;> decide

theorem hitCond_setMarble (i : Fin 3) (rj : Fin 2 × Fin 5) (s : GState) (m : Marble)
    (hm : m.pos = newPos (s.marbles i)) :
    hitCond i rj (setMarble s i m) ↔ hits s i rj.1 rj.2 := by
  unfold hitCond hits setMarble
  simp only [Function.update_same, hm]

theorem marbleStep_inactive (i : Fin 3) (s : GState)
    (h : (s.marbles i).active = false) : marbleStep i s = s := by
  simp [marbleStep, h]

theorem marbleStep_oob (i : Fin 3) (s : GState) (h : (s.marbles i).active = true)
    (hz : (s.marbles i).pos.z + kMarbleSpeed > 30) :
    marbleStep i s = setMarble s i (deadMarble (s.marbles i)) := by
  simp only [marbleStep, h, if_true]
  rw [if_pos hz]
  simp [Function.update_idem, newPos, setMarble, deadMarble]

theorem marbleStep_inbounds (i : Fin 3) (s : GState) (h : (s.marbles i).active = true)
    (hz : ¬((s.marbles i).pos.z + kMarbleSpeed > 30)) :
    marbleStep i s = hitFold i blockOrder (setMarble s i (movedMarble (s.marbles i))) := by
  simp only [marbleStep, h, if_true]
  rw [if_neg hz]
  simp [newPos, setMarble, movedMarble, h]

theorem marbleStep_pos (i : Fin 3) (s : GState) (h : (s.marbles i).active = true) :
    ((marbleStep i s).marbles i).pos = newPos (s.marbles i) := by
  by_cases hz : (s.marbles i).pos.z + kMarbleSpeed > 30
  · rw [marbleStep_oob i s h hz]
    simp [setMarble, deadMarble]
  · rw [marbleStep_inbounds i s h hz, hitFold_marble_pos]
    simp [setMarble, movedMarble]

theorem marbleStep_currentState (i : Fin 3) (s : GState) :
    (marbleStep i s).currentState = s.currentState := by
  rcases Bool.eq_false_or_eq_true (s.marbles i).active with h | h
  · by_cases hz : (s.marbles i).pos.z + kMarbleSpeed > 30
    · rw [marbleStep_oob i s h hz]; rfl
    · rw [marbleStep_inbounds i s h hz, hitFold_currentState]; rfl
  · rw [marbleStep_inactive i s h]

theorem marbleStep_gameOverVisible (i : Fin 3) (s : GState) :
    (marbleStep i s).gameOverVisible = s.gameOverVisible := by
  rcases Bool.eq_false_or_eq_true (s.marbles i).active with h | h
  · by_cases hz : (s.marbles i).pos.z + kMarbleSpeed > 30
    · rw [marbleStep_oob i s h hz]; rfl
    · rw [marbleStep_inbounds i s h hz, hitFold_gameOverVisible]; rfl
  · rw [marbleStep_inactive i s h]

theorem marbleStep_running (i : Fin 3) (s : GState) :
    (marbleStep i s).running = s.running := by
  rcases Bool.eq_false_or_eq_true (s.marbles i).active with h | h
  · by_cases hz : (s.marbles i).pos.z + kMarbleSpeed > 30
    · rw [marbleStep_oob i s h hz]; rfl
    · rw [marbleStep_inbounds i s h hz, hitFold_running]; rfl
  · rw [marbleStep_inactive i s h]

theorem marbleStep_blocks_pos (i : Fin 3) (s : GState) (r : Fin 2) (c : Fin 5) :
    ((marbleStep i s).blocks r c).pos = (s.blocks r c).pos := by
  rcases Bool.eq_false_or_eq_true (s.marbles i).active with h | h
  · by_cases hz : (s.marbles i).pos.z + kMarbleSpeed > 30
    · rw [marbleStep_oob i s h hz]; rfl
    · rw [marbleStep_inbounds i s h hz, hitFold_blocks_pos]; rfl
  · rw [marbleStep_inactive i s h]

theorem marbleStep_blockStates (i : Fin 3) (s : GState) (h : (s.marbles i).active = true)
    (hz : ¬((s.marbles i).pos.z + kMarbleSpeed > 30)) (r : Fin 2) (c : Fin 5) :
    (marbleStep i s).blockStates r c =
      if hits s i r c then advance (s.blockStates r c) else s.blockStates r c := by
  rw [marbleStep_inbounds i s h hz,
      hitFold_blockStates i blockOrder blockOrder_nodup _ r c]
  simp only [mem_blockOrder, true_and,
    hitCond_setMarble i (r, c) s (movedMarble (s.marbles i)) rfl]
  rfl

theorem marbleStep_flags_hit (i : Fin 3) (s : GState) (h : (s.marbles i).active = true)
    (hz : ¬((s.marbles i).pos.z + kMarbleSpeed > 30))
    (hsome : ∃ r c, hits s i r c) :
    ((marbleStep i s).marbles i).active = false ∧
    ((marbleStep i s).marbles i).visible = false := by
  rw [marbleStep_inbounds i s h hz]
  obtain ⟨hact, hvis⟩ :=
    hitFold_marble_flags i blockOrder (setMarble s i (movedMarble (s.marbles i)))
  obtain ⟨r, c, hrc⟩ := hsome
  have hex : ∃ rj ∈ blockOrder, hitCond i rj (setMarble s i (movedMarble (s.marbles i))) :=
    ⟨(r, c), mem_blockOrder (r, c),
      (hitCond_setMarble i (r, c) s (movedMarble (s.marbles i)) rfl).mpr hrc⟩
  rw [hact, hvis, if_pos hex, if_pos hex]
  exact ⟨rfl, rfl⟩

theorem marbleStep_flags_nohit (i : Fin 3) (s : GState) (h : (s.marbles i).active = true)
    (hz : ¬((s.marbles i).pos.z + kMarbleSpeed > 30))
    (hnone : ∀ r c, ¬ hits s i r c) :
    ((marbleStep i s).marbles i).active = true ∧
    ((marbleStep i s).marbles i).visible = (s.marbles i).visible := by
  rw [marbleStep_inbounds i s h hz]
  obtain ⟨hact, hvis⟩ :=
    hitFold_marble_flags i blockOrder (setMarble s i (movedMarble (s.marbles i)))
  have hnex : ¬ ∃ rj ∈ blockOrder, hitCond i rj (setMarble s i (movedMarble (s.marbles i))) := by
    rintro ⟨rj, _, hcond⟩
    exact hnone rj.1 rj.2
      ((hitCond_setMarble i rj s (movedMarble (s.marbles i)) rfl).mp hcond)
  rw [hact, hvis, if_neg hnex, if_neg hnex]
  constructor
  · simp [setMarble, movedMarble, h]
  · simp [setMarble, movedMarble]



theorem marbleLoop_eq (s : GState) :
    marbleLoop s = marbleStep 2 (marbleStep 1 (marbleStep 0 s)) := by
  unfold marbleLoop
  rw [finRange3]
  rfl

theorem ShootMarble_fields (s : GState) :
    (ShootMarble s).blocks = s.blocks ∧ (ShootMarble s).blockStates = s.blockStates ∧
    (ShootMarble s).currentState = s.currentState ∧
    (ShootMarble s).gameOverVisible = s.gameOverVisible ∧
    (ShootMarble s).running = s.running := by
  unfold ShootMarble
  cases h : (List.finRange 3).find? (fun i => !(s.marbles i).active) with
  | some i => exact ⟨rfl, rfl, rfl, rfl, rfl⟩
  | none => exact ⟨rfl, rfl, rfl, rfl, rfl⟩

theorem marbleLoop_currentState (s : GState) :
    (marbleLoop s).currentState = s.currentState := by
  rw [marbleLoop_eq, marbleStep_currentState, marbleStep_currentState, marbleStep_currentState]

theorem allDead_iff (bs : Fin 2 → Fin 5 → BlockState) :
    allDead bs = true ↔ ∀ (r : Fin 2) (c : Fin 5), bs r c = BlockState.DEAD := by
  unfold allDead
  rw [List.all_eq_true]
  constructor
  · intro h r c
    exact of_decide_eq_true (h (r, c) (mem_blockOrder (r, c)))
  · intro h rj _
    exact decide_eq_true (h rj.1 rj.2)

theorem advance_dead : advance BlockState.DEAD = BlockState.DEAD := rfl

theorem marbleStep_dead_preserved (i : Fin 3) (s : GState) (r : Fin 2) (c : Fin 5)
    (hd : s.blockStates r c = BlockState.DEAD) :
    (marbleStep i s).blockStates r c = BlockState.DEAD := by
  rcases Bool.eq_false_or_eq_true (s.marbles i).active with h | h
  · by_cases hz : (s.marbles i).pos.z + kMarbleSpeed > 30
    · rw [marbleStep_oob i s h hz]; exact hd
    · rw [marbleStep_blockStates i s h hz r c]
      split
      · rw [hd, advance_dead]
      · exact hd
  · rw [marbleStep_inactive i s h]; exact hd

theorem overCheck_fields (t : GState) :
    ((if allDead t.blockStates = true then
        { t with currentState := GameState.OVER, gameOverVisible := true }
      else t).blockStates = t.blockStates) ∧
    ((if allDead t.blockStates = true then
        { t with currentState := GameState.OVER, gameOverVisible := true }
      else t).blocks = t.blocks) ∧
    ((if allDead t.blockStates = true then
        { t with currentState := GameState.OVER, gameOverVisible := true }
      else t).marbles = t.marbles) ∧
    ((if allDead t.blockStates = true then
        { t with currentState := GameState.OVER, gameOverVisible := true }
      else t).running = t.running) := by
  split <;> exact ⟨rfl, rfl, rfl, rfl⟩

/-- C4: while a marble is active, one tick of the marble loop advances its z by
exactly `kMarbleSpeed`; the out-of-bounds rule deactivates and hides it exactly
when the new z exceeds 30, touching no block state and no block model; below
the bound and away from every block the marble stays active. -/
theorem C4_marble_motion (i : Fin 3) (s : GState)
    (hact : (s.marbles i).active = true) :
    (((marbleStep i s).marbles i).pos.z = (s.marbles i).pos.z + kMarbleSpeed) ∧
    ((s.marbles i).pos.z + kMarbleSpeed > 30 →
      ((marbleStep i s).marbles i).active = false ∧
      ((marbleStep i s).marbles i).visible = false ∧
      (marbleStep i s).blockStates = s.blockStates ∧
      (marbleStep i s).blocks = s.blocks) ∧
    (¬((s.marbles i).pos.z + kMarbleSpeed > 30) →
      (∀ (r : Fin 2) (c : Fin 5),
        CheckCollision (newPos (s.marbles i)) (s.blocks r c).pos = false) →
      ((marbleStep i s).marbles i).active = true) := by
  refine ⟨?_, ?_, ?_⟩
  · rw [marbleStep_pos i s hact]; rfl
  · intro hz
    rw [marbleStep_oob i s hact hz]
    refine ⟨?_, ?_, rfl, rfl⟩
    · simp [setMarble, deadMarble]
    · simp [setMarble, deadMarble]
  · intro hz hcol
    have hnone : ∀ (r : Fin 2) (c : Fin 5), ¬ hits s i r c := by
      intro r c hh
      have h2 := hh.2
      rw [hcol r c] at h2
      exact Bool.false_ne_true h2
    exact (marbleStep_flags_nohit i s hact hz hnone).1

/-- C1 (amended): when an active marble's tick does not go out of bounds, every
non-DEAD block it overlaps — not just the first in grid order — has its state
advanced by one step, and if it overlaps at least one such block the marble
ends the tick deactivated and hidden. -/
theorem C1_hits_every_overlapped_block (i : Fin 3) (s : GState)
    (hact : (s.marbles i).active = true)
    (hz : ¬((s.marbles i).pos.z + kMarbleSpeed > 30)) :
    (∀ (r : Fin 2) (c : Fin 5),
      (marbleStep i s).blockStates r c =
        if hits s i r c then advance (s.blockStates r c) else s.blockStates r c) ∧
    ((∃ r c, hits s i r c) →
      ((marbleStep i s).marbles i).active = false ∧
      ((marbleStep i s).marbles i).visible = false) :=
  ⟨marbleStep_blockStates i s hact hz, marbleStep_flags_hit i s hact hz⟩



theorem UpdateGame_eq_nokey (inp : Input) (s : GState) (hkey : inp.key0 = false) :
    UpdateGame inp s =
      (if allDead ((marbleLoop (if inp.space = true then ShootMarble s else s)).blockStates) = true
       then { marbleLoop (if inp.space = true then ShootMarble s else s) with
                currentState := GameState.OVER, gameOverVisible := true }
       else marbleLoop (if inp.space = true then ShootMarble s else s)) := by
  simp only [UpdateGame, hkey, Bool.false_eq_true, if_false]

/-- C2 (amended): in a `GAME` frame without the restart key, the phase becomes
`OVER` exactly when the once-per-frame check after hit processing finds all ten
blocks `DEAD`; a state that is all-`DEAD` before the frame ends in `OVER`, and a
state that is not all-`DEAD` with no marble active and none fired stays `GAME`. -/
theorem C2_over_iff (inp : Input) (s : GState)
    (hphase : s.currentState = GameState.GAME) (hkey : inp.key0 = false) :
    ((UpdateGame inp s).currentState = GameState.OVER ↔
      allDead ((UpdateGame inp s).blockStates) = true) ∧
    (allDead s.blockStates = true →
      (UpdateGame inp s).currentState = GameState.OVER) ∧
    (allDead s.blockStates = false → inp.space = false →
      (∀ i : Fin 3, (s.marbles i).active = false) →
      (UpdateGame inp s).currentState = GameState.GAME) := by
  have hcs : (if inp.space = true then ShootMarble s else s).currentState = GameState.GAME := by
    split
    · rw [(ShootMarble_fields s).2.2.1]; exact hphase
    · exact hphase
  have hbs : (if inp.space = true then ShootMarble s else s).blockStates = s.blockStates := by
    split
    · exact (ShootMarble_fields s).2.1
    · rfl
  rw [UpdateGame_eq_nokey inp s hkey]
  refine ⟨?_, ?_, ?_⟩
  · by_cases had : allDead ((marbleLoop (if inp.space = true then ShootMarble s else s)).blockStates) = true
    · rw [if_pos had]
      exact ⟨fun _ => had, fun _ => rfl⟩
    · rw [if_neg had]
      constructor
      · intro hov
        rw [marbleLoop_currentState, hcs] at hov
        exact absurd hov (by decide)
      · intro had2
        exact absurd had2 had
  · intro hall
    have hdead : ∀ (r : Fin 2) (c : Fin 5),
        (marbleLoop (if inp.space = true then ShootMarble s else s)).blockStates r c
          = BlockState.DEAD := by
      intro r c
      have hstart : (if inp.space = true then ShootMarble s else s).blockStates r c
          = BlockState.DEAD := by
        rw [hbs]
        exact (allDead_iff s.blockStates).mp hall r c
      rw [marbleLoop_eq]
      exact marbleStep_dead_preserved 2 _ r c
        (marbleStep_dead_preserved 1 _ r c (marbleStep_dead_preserved 0 _ r c hstart))
    rw [if_pos ((allDead_iff _).mpr hdead)]
  · intro hnall hsp hact
    have hS1 : (if inp.space = true then ShootMarble s else s) = s := by
      rw [hsp]
      simp
    rw [hS1]
    have hloop : marbleLoop s = s := by
      rw [marbleLoop_eq, marbleStep_inactive 0 s (hact 0), marbleStep_inactive 1 s (hact 1),
        marbleStep_inactive 2 s (hact 2)]
    rw [hloop, if_neg (by rw [hnall]; exact Bool.false_ne_true)]
    exact hphase

/- C6 infrastructure -/

theorem bval_le_advance (b : BlockState) : bval b ≤ bval (advance b) := by
  cases b <;> simp [bval, advance]

theorem marbleStep_bval_mono (i : Fin 3) (s : GState) (r : Fin 2) (c : Fin 5) :
    bval (s.blockStates r c) ≤ bval ((marbleStep i s).blockStates r c) := by
  rcases Bool.eq_false_or_eq_true (s.marbles i).active with h | h
  · by_cases hz : (s.marbles i).pos.z + kMarbleSpeed > 30
    · rw [marbleStep_oob i s h hz]
      exact le_refl _
    · rw [marbleStep_blockStates i s h hz r c]
      split
      · exact bval_le_advance _
      · exact le_refl _
  · rw [marbleStep_inactive i s h]

theorem UpdateGame_bval_mono (inp : Input) (s : GState) (hkey : inp.key0 = false)
    (r : Fin 2) (c : Fin 5) :
    bval (s.blockStates r c) ≤ bval ((UpdateGame inp s).blockStates r c) := by
  rw [UpdateGame_eq_nokey inp s hkey,
    (overCheck_fields (marbleLoop (if inp.space = true then ShootMarble s else s))).1,
    marbleLoop_eq]
  have hbs : (if inp.space = true then ShootMarble s else s).blockStates = s.blockStates := by
    split
    · exact (ShootMarble_fields s).2.1
    · rfl
  calc bval (s.blockStates r c)
      = bval ((if inp.space = true then ShootMarble s else s).blockStates r c) := by rw [hbs]
    _ ≤ bval ((marbleStep 0 (if inp.space = true then ShootMarble s else s)).blockStates r c) :=
        marbleStep_bval_mono 0 _ r c
    _ ≤ bval ((marbleStep 1 (marbleStep 0 (if inp.space = true then ShootMarble s else s))).blockStates r c) :=
        marbleStep_bval_mono 1 _ r c
    _ ≤ _ := marbleStep_bval_mono 2 _ r c

theorem processBlock_dead_unchanged (i : Fin 3) (rj : Fin 2 × Fin 5) (s : GState)
    (r : Fin 2) (c : Fin 5) (hd : s.blockStates r c = BlockState.DEAD) :
    (processBlock i rj s).blocks r c = s.blocks r c ∧
    (processBlock i rj s).blockStates r c = BlockState.DEAD := by
  by_cases hc : hitCond i rj s
  · by_cases hrc : r = rj.1 ∧ c = rj.2
    · exfalso
      obtain ⟨h1, h2⟩ := hrc
      apply hc.1
      rw [← h1, ← h2]
      exact hd
    · constructor
      · unfold processBlock
        rw [if_pos hc]
        rcases hb : s.blockStates rj.1 rj.2 with _ | _ | _ <;> simp [updB_apply, hrc]
      · rw [processBlock_blockStates_ne i rj s r c hrc]
        exact hd
  · rw [processBlock_not_hit i rj s hc]
    exact ⟨rfl, hd⟩

theorem hitFold_dead_unchanged (i : Fin 3) (L : List (Fin 2 × Fin 5)) (s : GState)
    (r : Fin 2) (c : Fin 5) (hd : s.blockStates r c = BlockState.DEAD) :
    (hitFold i L s).blocks r c = s.blocks r c ∧
    (hitFold i L s).blockStates r c = BlockState.DEAD := by
  induction L generalizing s with
  | nil => exact ⟨rfl, hd⟩
  | cons rj L ih =>
    rw [hitFold_cons]
    obtain ⟨hb, hs⟩ := processBlock_dead_unchanged i rj s r c hd
    obtain ⟨hb2, hs2⟩ := ih (processBlock i rj s) hs
    exact ⟨hb2.trans hb, hs2⟩

theorem marbleStep_dead_unchanged (i : Fin 3) (s : GState)
    (r : Fin 2) (c : Fin 5) (hd : s.blockStates r c = BlockState.DEAD) :
    (marbleStep i s).blocks r c = s.blocks r c ∧
    (marbleStep i s).blockStates r c = BlockState.DEAD := by
  rcases Bool.eq_false_or_eq_true (s.marbles i).active with h | h
  · by_cases hz : (s.marbles i).pos.z + kMarbleSpeed > 30
    · rw [marbleStep_oob i s h hz]
      exact ⟨rfl, hd⟩
    · rw [marbleStep_inbounds i s h hz]
      exact hitFold_dead_unchanged i blockOrder _ r c hd
  · rw [marbleStep_inactive i s h]
    exact ⟨rfl, hd⟩

theorem UpdateGame_dead_unchanged (inp : Input) (s : GState) (hkey : inp.key0 = false)
    (r : Fin 2) (c : Fin 5) (hd : s.blockStates r c = BlockState.DEAD) :
    (UpdateGame inp s).blockStates r c = BlockState.DEAD ∧
    (UpdateGame inp s).blocks r c = s.blocks r c := by
  rw [UpdateGame_eq_nokey inp s hkey,
    (overCheck_fields (marbleLoop (if inp.space = true then ShootMarble s else s))).1,
    (overCheck_fields (marbleLoop (if inp.space = true then ShootMarble s else s))).2.1,
    marbleLoop_eq]
  have hbs : (if inp.space = true then ShootMarble s else s).blockStates = s.blockStates := by
    split
    · exact (ShootMarble_fields s).2.1
    · rfl
  have hbk : (if inp.space = true then ShootMarble s else s).blocks = s.blocks := by
    split
    · exact (ShootMarble_fields s).1
    · rfl
  have h0 : (if inp.space = true then ShootMarble s else s).blockStates r c = BlockState.DEAD := by
    rw [hbs]; exact hd
  obtain ⟨hb0, hs0⟩ := marbleStep_dead_unchanged 0 _ r c h0
  obtain ⟨hb1, hs1⟩ := marbleStep_dead_unchanged 1 _ r c hs0
  obtain ⟨hb2, hs2⟩ := marbleStep_dead_unchanged 2 _ r c hs1
  refine ⟨hs2, ?_⟩
  rw [hb2, hb1, hb0, hbk]



theorem processBlock_blocksInv (i : Fin 3) (rj : Fin 2 × Fin 5) (s : GState)
    (h : blocksInv s) : blocksInv (processBlock i rj s) := by
  intro r c hd
  by_cases hc : hitCond i rj s
  · by_cases hrc : r = rj.1 ∧ c = rj.2
    · obtain ⟨h1, h2⟩ := hrc
      subst h1
      subst h2
      rw [processBlock_blockStates_self, if_pos hc] at hd
      unfold processBlock
      rw [if_pos hc]
      rcases hb : s.blockStates rj.1 rj.2 with _ | _ | _
      · rw [hb] at hd
        exact absurd hd (by decide)
      · simp only [hb, updB_apply]
        simp
      · exact absurd hb hc.1
    · rw [processBlock_blockStates_ne i rj s r c hrc] at hd
      have hbv := h r c hd
      unfold processBlock
      rw [if_pos hc]
      rcases hb : s.blockStates rj.1 rj.2 with _ | _ | _ <;> simp [updB_apply, hrc, hbv]
  · rw [processBlock_not_hit i rj s hc] at hd ⊢
    exact h r c hd

theorem hitFold_blocksInv (i : Fin 3) (L : List (Fin 2 × Fin 5)) (s : GState)
    (h : blocksInv s) : blocksInv (hitFold i L s) := by
  induction L generalizing s with
  | nil => exact h
  | cons rj L ih =>
    rw [hitFold_cons]
    exact ih (processBlock i rj s) (processBlock_blocksInv i rj s h)

theorem marbleStep_blocksInv (i : Fin 3) (s : GState) (h : blocksInv s) :
    blocksInv (marbleStep i s) := by
  rcases Bool.eq_false_or_eq_true (s.marbles i).active with ha | ha
  · by_cases hz : (s.marbles i).pos.z + kMarbleSpeed > 30
    · rw [marbleStep_oob i s ha hz]
      exact h
    · rw [marbleStep_inbounds i s ha hz]
      exact hitFold_blocksInv i blockOrder _ h
  · rw [marbleStep_inactive i s ha]
    exact h

theorem UpdateGame_blocksInv (inp : Input) (s : GState) (hkey : inp.key0 = false)
    (h : blocksInv s) : blocksInv (UpdateGame inp s) := by
  rw [UpdateGame_eq_nokey inp s hkey]
  intro r c
  rw [(overCheck_fields (marbleLoop (if inp.space = true then ShootMarble s else s))).1,
    (overCheck_fields (marbleLoop (if inp.space = true then ShootMarble s else s))).2.1]
  have hS1 : blocksInv (if inp.space = true then ShootMarble s else s) := by
    split
    · intro r' c' hd
      rw [(ShootMarble_fields s).1]
      rw [(ShootMarble_fields s).2.1] at hd
      exact h r' c' hd
    · exact h
  rw [marbleLoop_eq]
  exact marbleStep_blocksInv 2 _ (marbleStep_blocksInv 1 _ (marbleStep_blocksInv 0 _ hS1)) r c

/-- C6: in a frame without restart, every block's damage rank never decreases; a
block that is `DEAD` stays `DEAD` and its model is untouched (it is skipped by
collision testing); the "`DEAD` implies invisible" invariant is preserved; and
one hit advances a block's state by exactly one step along
`NORMAL → HIT_ONCE → DEAD` or leaves it unchanged. -/
theorem C6_block_monotone (inp : Input) (s : GState) (hkey : inp.key0 = false) :
    (∀ (r : Fin 2) (c : Fin 5),
      bval (s.blockStates r c) ≤ bval ((UpdateGame inp s).blockStates r c)) ∧
    (∀ (r : Fin 2) (c : Fin 5), s.blockStates r c = BlockState.DEAD →
      (UpdateGame inp s).blockStates r c = BlockState.DEAD ∧
      (UpdateGame inp s).blocks r c = s.blocks r c) ∧
    (blocksInv s → blocksInv (UpdateGame inp s)) ∧
    (∀ (i : Fin 3) (rj : Fin 2 × Fin 5) (t : GState),
      (processBlock i rj t).blockStates rj.1 rj.2 = t.blockStates rj.1 rj.2 ∨
      (processBlock i rj t).blockStates rj.1 rj.2 = advance (t.blockStates rj.1 rj.2)) := by
  refine ⟨fun r c => UpdateGame_bval_mono inp s hkey r c,
    fun r c hd => UpdateGame_dead_unchanged inp s hkey r c hd,
    fun h => UpdateGame_blocksInv inp s hkey h,
    fun i rj t => ?_⟩
  rw [processBlock_blockStates_self]
  split
  · exact Or.inr rfl
  · exact Or.inl rfl

/- C5 infrastructure -/

theorem ShootMarble_full (s : GState) (h : ∀ i : Fin 3, (s.marbles i).active = true) :
    ShootMarble s = s := by
  unfold ShootMarble
  have hf : (List.finRange 3).find? (fun i => !(s.marbles i).active) = none := by
    rw [List.find?_eq_none]
    intro i _
    rw [h i]
    simp
  rw [hf]

theorem setMarble_marbles_ne (s : GState) (k i : Fin 3) (m : Marble) (hi : i ≠ k) :
    (setMarble s k m).marbles i = s.marbles i := by
  unfold setMarble
  exact Function.update_noteq hi m s.marbles

theorem ShootMarble_first0 (s : GState) (h0 : (s.marbles 0).active = false) :
    ShootMarble s = setMarble s 0 ⟨⟨0, 0, 0⟩, true, true⟩ := by
  unfold ShootMarble
  rw [finRange3]
  simp [List.find?, h0, setMarble]

theorem ShootMarble_first1 (s : GState) (h0 : (s.marbles 0).active = true)
    (h1 : (s.marbles 1).active = false) :
    ShootMarble s = setMarble s 1 ⟨⟨0, 0, 0⟩, true, true⟩ := by
  unfold ShootMarble
  rw [finRange3]
  simp [List.find?, h0, h1, setMarble]

theorem ShootMarble_first2 (s : GState) (h0 : (s.marbles 0).active = true)
    (h1 : (s.marbles 1).active = true) (h2 : (s.marbles 2).active = false) :
    ShootMarble s = setMarble s 2 ⟨⟨0, 0, 0⟩, true, true⟩ := by
  unfold ShootMarble
  rw [finRange3]
  simp [List.find?, h0, h1, h2, setMarble]

theorem ShootMarble_activeSet (s : GState) (k : Nat) (hk : k < 3)
    (h : ∀ i : Fin 3, ((s.marbles i).active = true ↔ i.val < k)) :
    ∀ i : Fin 3, (((ShootMarble s).marbles i).active = true ↔ i.val < k + 1) := by
  have htrue : ∀ i : Fin 3, i.val < k → (s.marbles i).active = true :=
    fun i hi => (h i).mpr hi
  have hfalse : ∀ i : Fin 3, ¬ (i.val < k) → (s.marbles i).active = false := by
    intro i hi
    rcases Bool.eq_false_or_eq_true (s.marbles i).active with ht | hf
    · exact absurd ((h i).mp ht) hi
    · exact hf
  have hshot : ∃ kk : Fin 3, kk.val = k ∧
      ShootMarble s = setMarble s kk ⟨⟨0, 0, 0⟩, true, true⟩ := by
    interval_cases k
    · exact ⟨0, rfl, ShootMarble_first0 s (hfalse 0 (by decide))⟩
    · exact ⟨1, rfl, ShootMarble_first1 s (htrue 0 (by decide)) (hfalse 1 (by decide))⟩
    · exact ⟨2, rfl, ShootMarble_first2 s (htrue 0 (by decide)) (htrue 1 (by decide))
        (hfalse 2 (by decide))⟩
  obtain ⟨kk, hkk, hshoot⟩ := hshot
  rw [hshoot]
  intro i
  by_cases hi : i = kk
  · subst hi
    rw [hkk]  -- hmm hkk : i.val = k; rewrite RHS i.val < k+1 → ... wait
    constructor
    · intro _
      exact Nat.lt_succ_self k
    · intro _
      show (Function.update s.marbles i ⟨⟨0, 0, 0⟩, true, true⟩ i).active = true
      rw [Function.update_same]
  · rw [setMarble_marbles_ne s kk i _ hi]
    rw [h i]
    subst hkk
    constructor
    · exact fun hik => Nat.lt_succ_of_lt hik
    · intro hik
      rcases Nat.lt_succ_iff_lt_or_eq.mp hik with h1 | h1
      · exact h1
      · exact absurd (Fin.ext h1) hi

theorem fire_iterate_activeSet (s : GState)
    (h0 : ∀ i : Fin 3, (s.marbles i).active = false) (n : Nat) :
    ∀ i : Fin 3, ((ShootMarble^[n] s).marbles i).active = true ↔ i.val < min n 3 := by
  induction n with
  | zero =>
    intro i
    rw [Function.iterate_zero_apply]
    simp [h0 i]
  | succ n ih =>
    rw [Function.iterate_succ_apply']
    by_cases hn : n < 3
    · have hmin : min n 3 = n := Nat.min_eq_left (Nat.le_of_lt hn)
      have hmin2 : min (n + 1) 3 = n + 1 := Nat.min_eq_left hn
      rw [hmin2]
      have := ShootMarble_activeSet (ShootMarble^[n] s) n hn (fun i => by rw [ih i, hmin])
      exact this
    · push_neg at hn
      have hall : ∀ i : Fin 3, ((ShootMarble^[n] s).marbles i).active = true := by
        intro i
        rw [ih i]
        exact lt_min (Nat.lt_of_lt_of_le i.isLt hn) i.isLt
      rw [ShootMarble_full _ hall]
      intro i
      rw [ih i]
      have h1 : min n 3 = 3 := Nat.min_eq_right hn
      have h2 : min (n + 1) 3 = 3 := Nat.min_eq_right (Nat.le_succ_of_le hn)
      rw [h1, h2]

theorem activeCount_of_activeSet (s : GState) (k : Nat) (hk : k ≤ 3)
    (h : ∀ i : Fin 3, ((s.marbles i).active = true ↔ i.val < k)) :
    activeCount s = k := by
  have htrue : ∀ i : Fin 3, i.val < k → (s.marbles i).active = true :=
    fun i hi => (h i).mpr hi
  have hfalse : ∀ i : Fin 3, ¬ (i.val < k) → (s.marbles i).active = false := by
    intro i hi
    rcases Bool.eq_false_or_eq_true (s.marbles i).active with ht | hf
    · exact absurd ((h i).mp ht) hi
    · exact hf
  unfold activeCount
  rw [finRange3]
  interval_cases k
  · simp [List.filter, hfalse 0 (by decide), hfalse 1 (by decide), hfalse 2 (by decide)]
  · simp [List.filter, htrue 0 (by decide), hfalse 1 (by decide), hfalse 2 (by decide)]
  · simp [List.filter, htrue 0 (by decide), htrue 1 (by decide), hfalse 2 (by decide)]
  · simp [List.filter, htrue 0 (by decide), htrue 1 (by decide), htrue 2 (by decide)]



/-- C5: from a pool with no active marble, N fire signals with no travel time in
between leave exactly `min N 3` marbles active; a fire scan that finds a free
slot activates the first inactive slot at the origin, visible; and firing with
all three slots active changes nothing at all. -/
theorem C5_fire_pool (N : Nat) (s : GState)
    (h0 : ∀ i : Fin 3, (s.marbles i).active = false) :
    activeCount (ShootMarble^[N] s) = min N 3 ∧
    (∀ t : GState, ∀ k : Fin 3, (t.marbles k).active = false →
      (∀ j : Fin 3, j.val < k.val → (t.marbles j).active = true) →
      ShootMarble t = setMarble t k ⟨⟨0, 0, 0⟩, true, true⟩) ∧
    (∀ t : GState, (∀ i : Fin 3, (t.marbles i).active = true) → ShootMarble t = t) := by
  refine ⟨?_, ?_, fun t ht => ShootMarble_full t ht⟩
  · exact activeCount_of_activeSet _ (min N 3) (Nat.min_le_right N 3)
      (fire_iterate_activeSet s h0 N)
  · intro t k hk hlt
    rcases k with ⟨kv, hkv⟩
    interval_cases kv
    · exact ShootMarble_first0 t hk
    · exact ShootMarble_first1 t (hlt 0 (by exact Nat.zero_lt_one)) hk
    · exact ShootMarble_first2 t (hlt 0 (by exact Nat.zero_lt_two))
        (hlt 1 (by exact Nat.one_lt_two)) hk

/- C8 infrastructure -/

theorem processBlock_marbleInv (i : Fin 3) (rj : Fin 2 × Fin 5) (s : GState)
    (h : marbleInv s) : marbleInv (processBlock i rj s) := by
  intro k
  by_cases hk : k = i
  · rw [hk, processBlock_marble_active, processBlock_marble_visible]
    by_cases hc : hitCond i rj s <;> simp [hc, h i]
  · rw [processBlock_marbles_ne i rj s k hk]
    exact h k

theorem hitFold_marbleInv (i : Fin 3) (L : List (Fin 2 × Fin 5)) (s : GState)
    (h : marbleInv s) : marbleInv (hitFold i L s) := by
  induction L generalizing s with
  | nil => exact h
  | cons rj L ih =>
    rw [hitFold_cons]
    exact ih (processBlock i rj s) (processBlock_marbleInv i rj s h)

theorem setMarble_marbleInv (s : GState) (k : Fin 3) (m : Marble)
    (h : marbleInv s) (hm : m.active = m.visible) :
    marbleInv (setMarble s k m) := by
  intro i
  by_cases hi : i = k
  · rw [hi]
    have hup : (setMarble s k m).marbles k = m := by
      unfold setMarble
      exact Function.update_same k m s.marbles
    rw [hup]
    exact hm
  · rw [setMarble_marbles_ne s k i m hi]
    exact h i

theorem marbleStep_marbleInv (i : Fin 3) (s : GState) (h : marbleInv s) :
    marbleInv (marbleStep i s) := by
  rcases Bool.eq_false_or_eq_true (s.marbles i).active with ha | ha
  · by_cases hz : (s.marbles i).pos.z + kMarbleSpeed > 30
    · rw [marbleStep_oob i s ha hz]
      exact setMarble_marbleInv s i _ h rfl
    · rw [marbleStep_inbounds i s ha hz]
      exact hitFold_marbleInv i blockOrder _
        (setMarble_marbleInv s i _ h (h i))
  · rw [marbleStep_inactive i s ha]
    exact h

theorem ShootMarble_marbleInv (s : GState) (h : marbleInv s) :
    marbleInv (ShootMarble s) := by
  unfold ShootMarble
  cases hf : (List.finRange 3).find? (fun i => !(s.marbles i).active) with
  | some i =>
    intro k
    by_cases hk : k = i
    · subst hk
      show (Function.update s.marbles k _ k).active = (Function.update s.marbles k _ k).visible
      rw [Function.update_same]
    · show (Function.update s.marbles i _ k).active = (Function.update s.marbles i _ k).visible
      rw [Function.update_noteq hk]
      exact h k
  | none => exact h

theorem RestartGame_marbleInv (s : GState) : marbleInv (RestartGame s) :=
  fun _ => rfl

theorem UpdateGame_marbleInv (inp : Input) (s : GState) (h : marbleInv s) :
    marbleInv (UpdateGame inp s) := by
  have h1 : marbleInv (if inp.space = true then ShootMarble s else s) := by
    split
    · exact ShootMarble_marbleInv s h
    · exact h
  have h2 : marbleInv (marbleLoop (if inp.space = true then ShootMarble s else s)) := by
    rw [marbleLoop_eq]
    exact marbleStep_marbleInv 2 _ (marbleStep_marbleInv 1 _ (marbleStep_marbleInv 0 _ h1))
  have h3 : marbleInv (if inp.key0 = true
      then RestartGame (marbleLoop (if inp.space = true then ShootMarble s else s))
      else marbleLoop (if inp.space = true then ShootMarble s else s)) := by
    split
    · exact RestartGame_marbleInv _
    · exact h2
  have h4 : UpdateGame inp s =
      (if allDead ((if inp.key0 = true
          then RestartGame (marbleLoop (if inp.space = true then ShootMarble s else s))
          else marbleLoop (if inp.space = true then ShootMarble s else s)).blockStates) = true
       then { (if inp.key0 = true
          then RestartGame (marbleLoop (if inp.space = true then ShootMarble s else s))
          else marbleLoop (if inp.space = true then ShootMarble s else s)) with
            currentState := GameState.OVER, gameOverVisible := true }
       else (if inp.key0 = true
          then RestartGame (marbleLoop (if inp.space = true then ShootMarble s else s))
          else marbleLoop (if inp.space = true then ShootMarble s else s))) := by
    simp only [UpdateGame]
  rw [h4]
  generalize hX : (if inp.key0 = true
      then RestartGame (marbleLoop (if inp.space = true then ShootMarble s else s))
      else marbleLoop (if inp.space = true then ShootMarble s else s)) = X
  rw [hX] at h3
  intro k
  split
  · exact h3 k
  · exact h3 k

/-- C8: marble activity coincides with visibility: the invariant holds in the
initial scene and is preserved by every frame of the top-level update. -/
theorem C8_active_iff_visible (inp : Input) (s : GState) (h : marbleInv s) :
    marbleInv (Update inp s) ∧ marbleInv SetupScene := by
  refine ⟨?_, fun _ => rfl⟩
  cases hcs : s.currentState with
  | MENU =>
    have hU : Update inp s =
        (if inp.space = true then { s with currentState := GameState.GAME } else s) := by
      simp only [Update, hcs]
    rw [hU]
    split
    · intro k
      exact h k
    · exact h
  | GAME =>
    have hU : Update inp s = UpdateGame inp s := by
      simp only [Update, hcs]
    rw [hU]
    exact UpdateGame_marbleInv inp s h
  | OVER =>
    have hU : Update inp s =
        (if inp.escape = true
         then { (if inp.key0 = true then RestartGame s else s) with running := false }
         else (if inp.key0 = true then RestartGame s else s)) := by
      simp only [Update, hcs]
    rw [hU]
    have h1 : marbleInv (if inp.key0 = true then RestartGame s else s) := by
      split
      · exact RestartGame_marbleInv s
      · exact h
    revert h1
    generalize hX : (if inp.key0 = true then RestartGame s else s) = X
    intro h1
    split
    · intro k
      exact h1 k
    · exact h1

/-- C9: in the `MENU` and `OVER` phases a frame without restart and quit signals
changes no marble and no block; an `OVER` frame is a complete no-op, and a
`MENU` frame can only change the phase, to `GAME` exactly on the start signal. -/
theorem C9_idle_phases (inp : Input) (s : GState)
    (hk : inp.key0 = false) (he : inp.escape = false) :
    (s.currentState = GameState.OVER → Update inp s = s) ∧
    (s.currentState = GameState.MENU →
      (Update inp s).marbles = s.marbles ∧
      (Update inp s).blocks = s.blocks ∧
      (Update inp s).blockStates = s.blockStates ∧
      (Update inp s).gameOverVisible = s.gameOverVisible ∧
      (Update inp s).running = s.running ∧
      (Update inp s).currentState =
        (if inp.space = true then GameState.GAME else s.currentState)) := by
  constructor
  · intro hov
    simp only [Update, hov]
    simp [hk, he]
  · intro hm
    simp only [Update, hm]
    by_cases hsp : inp.space = true <;> simp [hsp, hm]

/-! ### Evaluation helpers for concrete runs -/

theorem finVal5_0 : (0 : Fin 5).val = 0 := rfl

theorem finVal5_1 : (1 : Fin 5).val = 1 := rfl

theorem finVal5_2 : (2 : Fin 5).val = 2 := rfl

theorem finVal5_3 : (3 : Fin 5).val = 3 := rfl

theorem finVal5_4 : (4 : Fin 5).val = 4 := rfl

theorem finVal2_0 : (0 : Fin 2).val = 0 := rfl

theorem finVal2_1 : (1 : Fin 2).val = 1 := rfl

theorem normal_ne_dead : BlockState.NORMAL ≠ BlockState.DEAD := by decide

theorem hitOnce_ne_dead : BlockState.HIT_ONCE ≠ BlockState.DEAD := by decide

theorem normal_ne_hitOnce : BlockState.NORMAL ≠ BlockState.HIT_ONCE := by decide

/-! ### Counterexamples and witnesses on concrete states -/

/-- C1 counterexample: in `testC1` exactly one marble is active (at `z = 17/2`,
so at `z = 9` after moving), yet one `GAME` frame advances the damage state of
BOTH block `(0,2)` and block `(0,3)`: the collision loop has no `break`, so a
deactivated marble keeps hitting later blocks in the same frame. -/
theorem C1_counterexample :
    activeCount testC1 = 1 ∧
    testC1.blockStates 0 2 = BlockState.NORMAL ∧
    testC1.blockStates 0 3 = BlockState.NORMAL ∧
    (UpdateGame noKeys testC1).blockStates 0 2 = BlockState.HIT_ONCE ∧
    (UpdateGame noKeys testC1).blockStates 0 3 = BlockState.HIT_ONCE := by
  refine ⟨by decide, by decide, by decide, ?_⟩
  norm_num [UpdateGame, noKeys, marbleLoop, finRange3, marbleStep, hitFold, blockOrder,
    processBlock, hitCond, CheckCollision, ShootMarble, RestartGame, SetupScene,
    testC1, marbleAt, idleMarble, blockInitPos, updB, allDead,
    kMarbleSpeed, kBlockWidth, Function.update, Fin.ext_iff,
    finVal5_0, finVal5_1, finVal5_2, finVal5_3, finVal5_4, finVal2_0, finVal2_1,
    normal_ne_dead, hitOnce_ne_dead, normal_ne_hitOnce]

/-- C1 witness for the amended claim: marble 0 of `testC1` overlaps block
`(0,2)` after moving and ends the tick deactivated and hidden. -/
theorem C1_amended_witness :
    ((marbleStep 0 testC1).marbles 0).active = false ∧
    ((marbleStep 0 testC1).marbles 0).visible = false :=
  (C1_hits_every_overlapped_block 0 testC1 (by decide)
      (by norm_num [testC1, marbleAt, idleMarble, Function.update, kMarbleSpeed])).2
    ⟨0, 2, ⟨by decide, by
      norm_num [CheckCollision, newPos, testC1, RestartGame, SetupScene, blockInitPos,
        marbleAt, idleMarble, Function.update, kMarbleSpeed, kBlockWidth,
        finVal5_2, finVal2_0]⟩⟩

/-- C2 counterexample: `testC2` is a `GAME` state with nine `DEAD` blocks and one
`NORMAL` block, yet a single frame ends in `OVER`: two marbles in flight hit the
same block twice in one frame, taking it `NORMAL → HIT_ONCE → DEAD`. -/
theorem C2_counterexample :
    deadCount testC2 = 9 ∧
    testC2.blockStates 0 2 = BlockState.NORMAL ∧
    testC2.currentState = GameState.GAME ∧
    (UpdateGame noKeys testC2).currentState = GameState.OVER := by
  refine ⟨by decide, by decide, by decide, ?_⟩
  norm_num [UpdateGame, noKeys, marbleLoop, finRange3, marbleStep, hitFold, blockOrder,
    processBlock, hitCond, CheckCollision, ShootMarble, RestartGame, SetupScene,
    testC2, marbleAt, idleMarble, blockInitPos, updB, allDead,
    kMarbleSpeed, kBlockWidth, Function.update, Fin.ext_iff,
    finVal5_0, finVal5_1, finVal5_2, finVal5_3, finVal5_4, finVal2_0, finVal2_1,
    normal_ne_dead, hitOnce_ne_dead, normal_ne_hitOnce]

/-- C2 witness: the freshly restarted game satisfies the amended OVER-iff-allDead
equivalence for a no-key frame. -/
theorem C2_witness :
    (UpdateGame noKeys (RestartGame SetupScene)).currentState = GameState.OVER ↔
      allDead ((UpdateGame noKeys (RestartGame SetupScene)).blockStates) = true :=
  (C2_over_iff noKeys (RestartGame SetupScene) rfl rfl).1

/-- C4 witness: the active marble of `testC4` gains exactly `kMarbleSpeed` in z
in one tick. -/
theorem C4_witness :
    ((marbleStep 0 testC4).marbles 0).pos.z = (testC4.marbles 0).pos.z + kMarbleSpeed :=
  (C4_marble_motion 0 testC4 (by decide)).1

/-- C5 witness: two fire signals from the fresh scene leave `min 2 3 = 2`
marbles active. -/
theorem C5_witness : activeCount (ShootMarble^[2] SetupScene) = min 2 3 :=
  (C5_fire_pool 2 SetupScene (fun _ => rfl)).1

/-- C6 witness: block `(0,0)` of the restarted game never regresses over a
no-key frame. -/
theorem C6_witness :
    bval ((RestartGame SetupScene).blockStates 0 0) ≤
      bval ((UpdateGame noKeys (RestartGame SetupScene)).blockStates 0 0) :=
  (C6_block_monotone noKeys (RestartGame SetupScene) rfl).1 0 0

/-- C8 witness: activity equals visibility for marble 0 after one fresh-scene
frame. -/
theorem C8_witness :
    ((Update noKeys SetupScene).marbles 0).active =
      ((Update noKeys SetupScene).marbles 0).visible :=
  (C8_active_iff_visible noKeys SetupScene (fun _ => rfl)).1 0

/-- C9 witness: an `OVER` frame without restart and quit signals is a no-op. -/
theorem C9_witness : Update noKeys overState = overState :=
  (C9_idle_phases noKeys overState rfl rfl).1 rfl

end KillerCubes
